import Mathlib

/-!
Verification of the `gutbuster` game-server discovery subsystem against its
natural-language specification.

The Python sources are shallowly embedded:

* bytes are `List Nat` with every element `< 256` at use sites;
* Python exceptions are the explicit error type `PyExc`, and fallible Python
  code returns `Except PyExc _`;
* `struct.unpack_from`/`struct.pack` calls are expanded field by field.  Every
  call in the source uses a single-field format string (via `_unpack`), where
  native mode inserts no padding, so each field is a raw little-endian read at
  the running offset.  `struct.pack` with a multi-field native format string
  ("BI") does insert alignment padding, which is modelled explicitly;
* Python `datetime` instants are rationals (seconds); the network is modelled
  as a list of events consumed by each `await socket.recvfrom(...)`.
-/

namespace Gutbuster

/- Core marks the rational arithmetic operations `@[irreducible]`; making
them semireducible again lets `decide` evaluate the model's clock and
round-trip-time arithmetic. -/
attribute [local semireducible] Rat.add Rat.mul Rat.inv Rat.sub

/-! ## Byte-level helpers -/

/-- Little-endian 4-byte encoding of a value already known to be < 2^32
(`struct.pack("I", n)` after its range check). -/
def u32le (n : Nat) : List Nat :=
  [n % 256, n / 256 % 256, n / 2 ^ 16 % 256, n / 2 ^ 24 % 256]

/-- `int.from_bytes(bs, byteorder="little", signed=False)`. -/
def fromLE (bs : List Nat) : Nat :=
  bs.foldr (fun b acc => b + 256 * acc) 0

/-! ## `packet.py`: the Packet Codec -/

/-- Python exceptions that the codec and its helpers can raise.  The first
three are the `PacketError` subclasses defined in `packet.py`
(`MissingHeaderError`, `BadChecksumError`, `PacketTypeError`); the rest are
built-in exceptions raised by library calls on malformed input. -/
inductive PyExc where
  | missingHeader
  | badChecksum (checksum : Nat)
  | packetTypeError (kind : Nat)
  /-- `NotImplementedError` -/
  | notImplemented
  /-- `struct.error` (short buffer in `unpack_from`, out-of-range value in `pack`) -/
  | structError
  /-- `ValueError` (invalid enumeration value) -/
  | valueError
  deriving DecidableEq, Repr

/-- Structural equality for `Except` values, used to state concrete decode
outcomes. -/
instance {ε α : Type} [DecidableEq ε] [DecidableEq α] : DecidableEq (Except ε α) := fun x y =>
  match x, y with
  | .ok a, .ok b =>
    if h : a = b then .isTrue (by rw [h])
    else .isFalse (by intro hc; cases hc; exact h rfl)
  | .error a, .error b =>
    if h : a = b then .isTrue (by rw [h])
    else .isFalse (by intro hc; cases hc; exact h rfl)
  | .ok _, .error _ => .isFalse (by intro hc; cases hc)
  | .error _, .ok _ => .isFalse (by intro hc; cases hc)

/-- Which exceptions are instances of `PacketError` (the class hierarchy in
`packet.py`); the `except PacketError` handler in `server.py` catches exactly
these. -/
def PyExc.isPacketError : PyExc → Bool
  | .missingHeader => true
  | .badChecksum _ => true
  | .packetTypeError _ => true
  | _ => false

/-- `GameSpeed` enum: EASY = 0, NORMAL = 1, HARD = 2. -/
inductive GameSpeed where
  | easy
  | normal
  | hard
  deriving DecidableEq, Repr

/-- `GameSpeed(n)`: `none` models the `ValueError` Python raises for a value
that is not a member of the enum. -/
def GameSpeed.ofNat? : Nat → Option GameSpeed
  | 0 => some .easy
  | 1 => some .normal
  | 2 => some .hard
  | _ => none

/-- `RefuseReason` enum: OK = 0, JOINS_DISABLED = 1, FULL = 2. -/
inductive RefuseReason where
  | ok
  | joinsDisabled
  | full
  deriving DecidableEq, Repr

/-- `RefuseReason(n)`; `none` models the `ValueError` for a non-member. -/
def RefuseReason.ofNat? : Nat → Option RefuseReason
  | 0 => some .ok
  | 1 => some .joinsDisabled
  | 2 => some .full
  | _ => none

/-- `ServerFlags` values are bit sets; the flag set itself is modelled by the
underlying integer value (LOTSOFADDONS = 0x20, DEDICATED = 0x40,
VOICEENABLED = 0x80).  `ServerFlags.all()` is the union of the members. -/
def ServerFlags.all : Nat := 0x20 ||| 0x40 ||| 0x80

/-- `ServerInfo` dataclass.  String-valued fields are modelled by their byte
content as produced by `cstr` (UTF-8 text decoding is not modelled; no claim
depends on it); `commit` and `map_md5` keep the raw bytes that the code
renders as hex text. -/
structure ServerInfo where
  application : List Nat
  version : Nat
  subversion : Nat
  commit : List Nat
  gametype_name : List Nat
  server_name : List Nat
  number_of_players : Nat
  max_players : Nat
  modified_game : Bool
  cheats_enabled : Bool
  avg_mobiums : Nat
  game_speed : GameSpeed
  flags : Nat
  refuse_reason : RefuseReason
  time : Nat
  level_time : Nat
  map_title : List Nat
  map_md5 : List Nat
  actnum : Nat
  is_zone : Bool
  number_of_files : Nat
  http_source : List Nat
  deriving DecidableEq, Repr

/-- `PlayerInfo` dataclass (the deprecated `address`/`skin`/`data` wire fields
are read but not stored, as in the source). -/
structure PlayerInfo where
  num : Nat
  name : List Nat
  team : Nat
  score : Nat
  time_in_server : Nat
  deriving DecidableEq, Repr

/-- `PlayerInfo.is_empty`: slot 255 is the empty-slot sentinel. -/
def PlayerInfo.is_empty (p : PlayerInfo) : Bool := p.num == 255

/-- Accumulation loop of `net_checksum`: `for i in range(length): checksum +=
packet[i + offset] * (i + 1)`, with `i + 1` carried as `w`.  Python integers
are unbounded, so no reduction modulo 2^32 happens anywhere. -/
def net_checksum_go : List Nat → Nat → Nat → Nat
  | [], _, acc => acc
  | b :: rest, w, acc => net_checksum_go rest (w + 1) (acc + b * w)

/-- `net_checksum(packet, offset=4)`: accumulator starts at `0x1234567` and the
checksummed span is the buffer from `offset` to its end. -/
def net_checksum (packet : List Nat) (offset : Nat := 4) : Nat :=
  net_checksum_go (packet.drop offset) 1 0x1234567

/-- The checksum as the specification states it (claim C1): the same
accumulation, but "with all additions performed in 32-bit wraparound
arithmetic".  This definition follows the spec's words, for comparison with
`net_checksum`, which is translated from the source. -/
def net_checksum_spec32_go : List Nat → Nat → Nat → Nat
  | [], _, acc => acc
  | b :: rest, w, acc => net_checksum_spec32_go rest (w + 1) ((acc + b * w) % 2 ^ 32)

/-- Spec-side 32-bit checksum over the span starting 4 bytes into the buffer. -/
def net_checksum_spec32 (packet : List Nat) : Nat :=
  net_checksum_spec32_go (packet.drop 4) 1 0x1234567

/-! ### Field readers

`_unpack` splits the format string on "/" and performs one
`struct.unpack_from` per field at the running offset.  Single-field native
formats have no alignment padding, so each read is a raw read; a buffer too
short for the requested field raises `struct.error`. -/

/-- `struct.unpack_from("B", packet, n)`. -/
def readU8 (packet : List Nat) (n : Nat) : Except PyExc Nat :=
  if n + 1 ≤ packet.length then .ok (packet.getD n 0) else .error .structError

/-- `struct.unpack_from("<len>s", packet, n)` (also used for `"4B"`, which
yields the same bytes as a tuple). -/
def readBytes (packet : List Nat) (n len : Nat) : Except PyExc (List Nat) :=
  if n + len ≤ packet.length then .ok ((packet.drop n).take len) else .error .structError

/-- `struct.unpack_from("I", packet, n)`: native little-endian u32. -/
def readU32 (packet : List Nat) (n : Nat) : Except PyExc Nat :=
  if n + 4 ≤ packet.length then .ok (fromLE ((packet.drop n).take 4)) else .error .structError

/-- `struct.unpack_from("H", packet, n)`: native little-endian u16. -/
def readU16 (packet : List Nat) (n : Nat) : Except PyExc Nat :=
  if n + 2 ≤ packet.length then .ok (fromLE ((packet.drop n).take 2)) else .error .structError

/-- `bytes.find(b"\0", offset)`: absolute index of the first NUL byte at a
position ≥ `offset`, `none` for Python's `-1`. -/
def findZero (s : List Nat) (offset : Nat) : Option Nat :=
  ((s.drop offset).findIdx? (· = 0)).map (· + offset)

/-- `cstrlen(s, offset=0, n=None)`. -/
def cstrlen (s : List Nat) (offset : Nat := 0) (n? : Option Nat := none) : Nat :=
  -- `length = len(s) - offset; if length < 0: return 0`
  if s.length < offset then 0
  else
    match n? with
    | some n =>
      if n < s.length - offset then
        -- `s = s[offset : offset + n]; offset = 0; length = n`
        match findZero ((s.drop offset).take n) 0 with
        | none => n
        | some i => i + 1
      else
        match findZero s offset with
        | none => s.length - offset
        | some i => i - offset + 1
    | none =>
      match findZero s offset with
      | none => s.length - offset
      | some i => i - offset + 1

/-- `cstr(s, offset=0, n=None)`: fixed-width C-string extraction.  The result
is the byte span after control bytes (≤ 0x19, 0x7F, ≥ 0x90) are replaced by
NUL and NULs are stripped; the UTF-8 `backslashreplace` text decoding itself
is not modelled (no claim depends on it).  For empty `s` the Python indexing
`s[offset + (n - 1)]` would raise `IndexError`; no call site passes empty
input (every field slot is at least 16 bytes, player names 22). -/
def cstr (s : List Nat) (offset : Nat := 0) (n? : Option Nat := none) : List Nat :=
  let n := cstrlen s offset n?
  -- `if not ord(chr(s[offset + (n - 1)])): n = n - 1` – drop a trailing NUL.
  let n := if s.getD (offset + (n - 1)) 0 = 0 then n - 1 else n
  let new_s := s.map (fun c => if c = 0x7F ∨ c ≤ 0x19 ∨ 0x90 ≤ c then 0 else c)
  ((new_s.drop offset).take n).filter (fun c => ¬ c = 0)

/-- `AskPacket`: version byte plus reserved time field. -/
structure AskPacket where
  version : Nat
  time : Nat
  deriving DecidableEq, Repr

/-- `AskPacket.__init__(*, version=RINGRACERS_VERSION, time=0)`.  Note that the
constructor body executes `self.time = 0`, ignoring the `time` argument. -/
def AskPacket.make (version : Nat := 2) (_time : Nat := 0) : AskPacket :=
  { version := version, time := 0 }

/-- The packet values of the three `@packet`-registered classes, as a closed
sum (`AskPacket`, `ServerInfoPacket`, `PlayerInfoPacket`).  The `_checksum`
attribute written by `Packet.unpack` is not part of the value: the Python
classes define no structural equality, and no claim depends on it. -/
inductive Packet where
  | ask (p : AskPacket)
  | serverInfo (info : ServerInfo)
  | playerInfo (players : List PlayerInfo)
  deriving DecidableEq, Repr

/-- `packet_type()` of each registered class (`PacketType` values ASKINFO = 12,
SERVERINFO = 13, PLAYERINFO = 14). -/
def Packet.packet_type : Packet → Nat
  | .ask _ => 12
  | .serverInfo _ => 13
  | .playerInfo _ => 14

/-- `struct.pack("BI", version, time)`: native mode aligns `I` to 4 bytes, so
three zero padding bytes follow the version byte (`calcsize("BI") == 8`); a
value out of range for its field raises `struct.error`. -/
def struct_pack_BI (version time : Nat) : Except PyExc (List Nat) :=
  if version < 256 ∧ time < 2 ^ 32 then
    .ok ([version] ++ [0, 0, 0] ++ u32le time)
  else .error .structError

/-- `pack_inner` of each registered class: only `AskPacket` implements it;
`ServerInfoPacket.pack_inner` and `PlayerInfoPacket.pack_inner` raise
`NotImplementedError`. -/
def Packet.pack_inner : Packet → Except PyExc (List Nat)
  | .ask a => struct_pack_BI a.version a.time
  | .serverInfo _ => .error .notImplemented
  | .playerInfo _ => .error .notImplemented

/-- `struct.pack("I", n)`: raises `struct.error` if the value does not fit. -/
def struct_pack_I (n : Nat) : Except PyExc (List Nat) :=
  if n < 2 ^ 32 then .ok (u32le n) else .error .structError

/-- `Packet.pack`: `struct.pack("xxBx", type)` (two zero ack bytes, the type
tag, one zero byte) followed by the payload, with the checksum over that
whole buffer (`offset=0`) prepended little-endian. -/
def Packet.pack (p : Packet) : Except PyExc (List Nat) := do
  let inner ← p.pack_inner
  let buf := [0, 0, p.packet_type, 0] ++ inner
  let cs ← struct_pack_I (net_checksum buf 0)
  return cs ++ buf

/-- `AskPacket.unpack_inner`: `raise NotImplementedError()`. -/
def AskPacket.unpack_inner (_packet : List Nat) : Except PyExc Packet :=
  .error .notImplemented

/-- `ServerInfoPacket.unpack_inner`: the `_packet` format string expanded
field by field (offsets are the running `n` of `_unpack`), followed by the
post-processing in source order. -/
def ServerInfoPacket.unpack_inner (packet : List Nat) : Except PyExc Packet := do
  let _255 ← readU8 packet 0                      -- "B_255"
  let _packetversion ← readU8 packet 1            -- "Bpacketversion"
  let application ← readBytes packet 2 16         -- "16sapplication"
  let version ← readU8 packet 18                  -- "Bversion"
  let subversion ← readU8 packet 19               -- "Bsubversion"
  let commit ← readBytes packet 20 4              -- "4Bcommit"
  let numberofplayer ← readU8 packet 24           -- "Bnumberofplayer"
  let maxplayer ← readU8 packet 25                -- "Bmaxplayer"
  let refusereason ← readU8 packet 26             -- "Brefusereason"
  let gametypename ← readBytes packet 27 24       -- "24sgametypename"
  let modifiedgame ← readU8 packet 51             -- "Bmodifiedgame"
  let cheatsenabled ← readU8 packet 52            -- "Bcheatsenabled"
  let kartvars ← readU8 packet 53                 -- "Bkartvars"
  let fileneedednum ← readU8 packet 54            -- "Bfileneedednum"
  let time ← readU32 packet 55                    -- "Itime"
  let leveltime ← readU32 packet 59               -- "Ileveltime"
  let servername ← readBytes packet 63 32         -- "32sservername"
  let maptitle ← readBytes packet 95 33           -- "33smaptitle"
  let mapmd5 ← readBytes packet 128 16            -- "16smapmd5"
  let actnum ← readU8 packet 144                  -- "Bactnum"
  let iszone ← readU8 packet 145                  -- "Biszone"
  let httpsource ← readBytes packet 146 256       -- "256shttpsource"
  let avgpwrlv ← readU16 packet 402               -- "Havgpwrlv"
  let _fileneeded := packet.drop 404              -- "*sfileneeded": the rest
  -- `game_speed = GameSpeed(kartvars & 0x03)` – ValueError when the low bits
  -- are 3, since `GameSpeed` has members 0, 1, 2 only.
  let game_speed ← match GameSpeed.ofNat? (kartvars &&& 0x03) with
    | some g => Except.ok g
    | none => Except.error .valueError
  -- `flags = ServerFlags(kartvars & ServerFlags.all().value)` – masking keeps
  -- only member bits, so the `Flag` construction cannot fail.
  let flags := kartvars &&& ServerFlags.all
  -- string fields, in source order
  let application := cstr application
  let gametypename := cstr gametypename
  let servername := cstr servername
  let maptitle := cstr maptitle
  let httpsource := cstr httpsource
  -- `RefuseReason(unpacked["refusereason"])` – evaluated while building the
  -- `ServerInfo`; ValueError for values ≥ 3.
  let refuse_reason ← match RefuseReason.ofNat? refusereason with
    | some r => Except.ok r
    | none => Except.error .valueError
  return .serverInfo {
    application := application
    version := version
    subversion := subversion
    commit := commit
    gametype_name := gametypename
    server_name := servername
    number_of_players := numberofplayer
    max_players := maxplayer
    modified_game := modifiedgame ≠ 0
    cheats_enabled := cheatsenabled ≠ 0
    avg_mobiums := avgpwrlv
    game_speed := game_speed
    flags := flags
    refuse_reason := refuse_reason
    time := time
    level_time := leveltime
    map_title := maptitle
    map_md5 := mapmd5
    actnum := actnum
    is_zone := iszone ≠ 0
    number_of_files := fileneedednum
    http_source := httpsource }

/-- One record of `PlayerInfoPacket._packet`
("Bnum/22sname/4saddress/Bteam/Bskin/Bdata/Iscore/Htimeinserver"): 36 bytes
consumed; `_unpack` returns the rest of the buffer. -/
def PlayerInfoPacket.read_one (packet : List Nat) :
    Except PyExc (PlayerInfo × List Nat) := do
  let num ← readU8 packet 0                       -- "Bnum"
  let name ← readBytes packet 1 22                -- "22sname"
  let _address ← readBytes packet 23 4            -- "4saddress"
  let team ← readU8 packet 27                     -- "Bteam"
  let _skin ← readU8 packet 28                    -- "Bskin"
  let _data ← readU8 packet 29                    -- "Bdata"
  let score ← readU32 packet 30                   -- "Iscore"
  let timeinserver ← readU16 packet 34            -- "Htimeinserver"
  return ({ num := num, name := cstr name, team := team, score := score,
            time_in_server := timeinserver }, packet.drop 36)

/-- The `for i in range(MAX_PLAYERS)` loop of `PlayerInfoPacket.unpack_inner`,
appending one decoded slot per iteration. -/
def PlayerInfoPacket.unpack_go : Nat → List Nat → Except PyExc (List PlayerInfo)
  | 0, _ => .ok []
  | n + 1, packet => do
    let (p, rest) ← PlayerInfoPacket.read_one packet
    let ps ← PlayerInfoPacket.unpack_go n rest
    return p :: ps

/-- `PlayerInfoPacket.unpack_inner`: decodes `MAX_PLAYERS = 16` fixed slots. -/
def PlayerInfoPacket.unpack_inner (packet : List Nat) : Except PyExc Packet := do
  let ps ← PlayerInfoPacket.unpack_go 16 packet
  return .playerInfo ps

/-- `set(e.value for e in PacketType)`. -/
def valid_packet_kinds : List Nat := [12, 13, 14, 32, 33]

/-- `Packet.unpack`: header length check, checksum verification, type-tag
dispatch.  The `packet_types` registry holds entries only for tags 12, 13 and
14; tags 32 and 33 (TELLFILESNEEDED, MOREFILESNEEDED) pass the
`valid_packet_kinds` membership test but have no registered class, so
`packet_types.get(...)` returns `None` and `NotImplementedError` is raised. -/
def Packet.unpack (packet : List Nat) : Except PyExc Packet :=
  if packet.length < 8 then .error .missingHeader
  else
    let checksum := fromLE (packet.take 4)
    if checksum ≠ net_checksum packet 4 then .error (.badChecksum checksum)
    else
      let packet_kind := packet.getD 6 0
      if packet_kind ∈ valid_packet_kinds then
        if packet_kind = 12 then AskPacket.unpack_inner (packet.drop 8)
        else if packet_kind = 13 then ServerInfoPacket.unpack_inner (packet.drop 8)
        else if packet_kind = 14 then PlayerInfoPacket.unpack_inner (packet.drop 8)
        else .error .notImplemented
      else .error (.packetTypeError packet_kind)

/-! ## `server.py`: the Query Client

One knock is `Server.knock` → `_get_info` → repeated `_ask`/`recvfrom`.  Time
(`datetime.now()`) is modelled as a rational number of seconds since the start
of the knock; the network is a list of events, one consumed per
`await asyncio.wait_for(socket.recvfrom(), timeout)`:

* `timedOut` — nothing arrived within the wait's timeout, `TimeoutError`
  is raised and the clock advances by the full per-attempt timeout;
* `recv elapsed datagram` — a datagram arrived `elapsed` seconds after the
  wait began.

If the loop awaits and no events remain, the coroutine would wait forever;
this is the `blocked` outcome. -/

/-- One network observation made by a `recvfrom` await. -/
inductive NetEvent where
  | timedOut
  | recv (elapsed : ℚ) (datagram : List Nat)
  deriving DecidableEq, Repr

/-- How a knock's `_get_info` call ends. -/
inductive KnockOutcome where
  /-- `return info, players` -/
  | success (info : ServerInfo) (players : List PlayerInfo)
  /-- `raise ConnectError(f"... after {tries} tries")` -/
  | connectError (tries : Nat)
  /-- an exception from `Packet.unpack` that is not a `PacketError` escapes
  the `except PacketError` handler and propagates out of the knock -/
  | uncaught (e : PyExc)
  /-- the loop is awaiting a datagram and the event trace is exhausted -/
  | blocked
  deriving DecidableEq, Repr

/-- The mutable state of `_get_info`'s retry loop, together with the
`self.pings` list that `_ask` mutates and the model clock. -/
structure KnockState where
  info : Option ServerInfo
  players : List PlayerInfo
  last_sent : Option Nat
  tries : Nat
  now : ℚ
  pings : List ℚ
  deriving DecidableEq, Repr

/-- The ping-window update in `_ask`:
`if len(self.pings) > 5: self.pings.pop(0)` then
`self.pings.append((end_time - start_time).total_seconds() * 1000)`.
The appended value is the delta in milliseconds (a float in Python — the
value is fractional whenever the delta is not a whole millisecond, despite
the `pings: List[int]` annotation). -/
def record_ping (pings : List ℚ) (delta_ms : ℚ) : List ℚ :=
  (if 5 < pings.length then pings.drop 1 else pings) ++ [delta_ms]

/-- The code after the `while` loop of `_get_info`:
`if info is None or len(players) < info.number_of_players: raise
ConnectError(...)` else `return info, players`. -/
def knockFinish (st : KnockState) : KnockState × KnockOutcome :=
  match st.info with
  | none => (st, .connectError st.tries)
  | some i =>
    if st.players.length < i.number_of_players then (st, .connectError st.tries)
    else (st, .success i st.players)

/-- The loop's behaviour once the deadline has passed while it still has
iterations left: every remaining iteration takes the
`if timeout_at <= start_time: tries += 1; continue` branch (the clock no
longer advances, so the condition stays true), so `tries` deterministically
counts up to `self.tries` and the loop falls through to the final check.
This is the closed form of that suffix of iterations. -/
def knockExhaust (triesMax : Nat) (st : KnockState) : KnockState × KnockOutcome :=
  knockFinish { st with tries := triesMax }

/-- The body of one loop iteration that reaches an `await` (the deadline has
not passed yet) and observes the network event `ev`.  `.inl st'` continues
the loop with the updated state; `.inr done` leaves it (an early `break` on
completion, or a non-`PacketError` exception propagating). -/
def getInfoStep (timeoutAt : ℚ) (st : KnockState) (ev : NetEvent) :
    Sum KnockState (KnockState × KnockOutcome) :=
  -- `if last_sent is None or last_sent < tries:` re-send via `_ask`,
  -- else keep listening on the socket ("ride from the last ask").
  let sendBranch := st.last_sent.all (· < st.tries)
  let st := if sendBranch then { st with last_sent := some st.tries } else st
  match ev with
  | .timedOut =>
    -- `except TimeoutError: tries += 1; continue`; the wait consumed the
    -- remaining time up to the deadline.
    .inl { st with now := timeoutAt, tries := st.tries + 1 }
  | .recv elapsed buf =>
    let st := { st with now := st.now + elapsed }
    -- `_ask` records a round-trip sample only on its own reply
    let st := if sendBranch then
        { st with pings := record_ping st.pings (elapsed * 1000) }
      else st
    match Packet.unpack buf with
    | .error e =>
      if e.isPacketError then
        -- `except PacketError as err: logger.warning(...); tries += 1`
        .inl { st with tries := st.tries + 1 }
      else .inr (st, .uncaught e)
    | .ok p =>
      match p with
      | .serverInfo i => .inl { st with info := some i }
      | .playerInfo ps =>
        let st := { st with
          players := st.players ++ ps.filter (fun (q : PlayerInfo) => !q.is_empty) }
        match st.info with
        | some i =>
          if i.number_of_players ≤ st.players.length then
            -- `break` out of the loop; the final check then passes
            .inr (st, .success i st.players)
          else .inl st
        | none => .inl st
      | .ask _ =>
        -- `Packet.unpack` never returns an `AskPacket` (its `unpack_inner`
        -- raises); neither isinstance matches, so the state is unchanged.
        .inl st

/-- The `while tries < self.tries` loop of `_get_info`.  `triesMax` is
`self.tries`, `timeoutAt` the precomputed deadline instant `timeout_at`.
Every iteration that reaches the `await` consumes exactly one network event
(`getInfoStep`); iterations after the deadline consume none and are
summarised by `knockExhaust` (see its docstring), so the recursion is
structural on the event list. -/
def getInfoLoop (triesMax : Nat) (timeoutAt : ℚ) :
    KnockState → List NetEvent → KnockState × KnockOutcome
  | st, [] =>
    if st.tries < triesMax then
      if timeoutAt ≤ st.now then knockExhaust triesMax st
      else (st, .blocked)
    else knockFinish st
  | st, ev :: evs =>
    if st.tries < triesMax then
      if timeoutAt ≤ st.now then knockExhaust triesMax st
      else
        match getInfoStep timeoutAt st ev with
        | .inl st' => getInfoLoop triesMax timeoutAt st' evs
        | .inr done => done
    else knockFinish st

/-- `Server`: the fields a knock reads or writes. -/
structure Server where
  tries : Nat := 5
  label : Option (List Nat) := none
  info : Option ServerInfo := none
  players : List PlayerInfo := []
  pings : List ℚ := []
  deriving DecidableEq, Repr

/-- `Server.ping`: `sum(self.pings) / len(self.pings)`; `none` models the
`ZeroDivisionError` raised when no knock has recorded a sample yet. -/
def Server.ping (s : Server) : Option ℚ :=
  if s.pings.length = 0 then none
  else some (s.pings.sum / (s.pings.length : ℚ))

/-- `Server._get_info(socket, timeout=5)`: sets `timeout_at = now + timeout`
and runs the retry loop on fresh accumulators. -/
def Server.get_info (s : Server) (timeout : ℚ) (evs : List NetEvent) :
    KnockState × KnockOutcome :=
  getInfoLoop s.tries timeout
    { info := none, players := [], last_sent := none, tries := 0, now := 0,
      pings := s.pings } evs

/-- `Server.knock`: on success assigns `self.info` and `self.players`; on any
exception they are left unchanged.  `self.pings` is mutated in place by
`_ask` during the loop, so it reflects the loop's final state either way. -/
def Server.knock (s : Server) (timeout : ℚ) (evs : List NetEvent) :
    Server × KnockOutcome :=
  let (st, out) := s.get_info timeout evs
  match out with
  | .success i ps => ({ s with info := some i, players := ps, pings := st.pings }, out)
  | _ => ({ s with pings := st.pings }, out)

/-! ## `watcher.py`: `WatchedServer.knock` and the poll cycle -/

/-- Operations on the per-instance `asyncio.Event`. -/
inductive SigAct where
  | set
  | clear
  deriving DecidableEq, Repr

/-- Whether a knock returned normally (as opposed to raising). -/
def KnockOutcome.isSuccess : KnockOutcome → Bool
  | .success _ _ => true
  | _ => false

/-- `WatchedServer.knock`: runs `Server.knock`; only when it returns normally
(success) does it execute `self.update_event.set()` immediately followed by
`self.update_event.clear()`.  An exception propagates before the signalling
code runs.  The third component is the trace of operations performed on the
notification primitive. -/
def WatchedServer.knock (s : Server) (timeout : ℚ) (evs : List NetEvent) :
    Server × KnockOutcome × List SigAct :=
  let r := Server.knock s timeout evs
  if r.2.isSuccess then (r.1, r.2, [.set, .clear]) else (r.1, r.2, [])

/-- One poll cycle over the tracked servers in iteration order
(`for server in ...: await server.knock()`, as in `ServerWatcher.knock` and
the `knock_servers` task).  Each server comes with its own network-event
trace.  There is no exception handling: the first knock that does not return
normally aborts the cycle, and the remaining servers are not knocked (their
states are returned untouched, with an empty signal trace).  The second
component is `none` when the cycle completed, or the aborting outcome. -/
def cycleKnock (servers : List (Server × List NetEvent)) (timeout : ℚ) :
    List (Server × List SigAct) × Option KnockOutcome :=
  match servers with
  | [] => ([], none)
  | (s, evs) :: rest =>
    let r := WatchedServer.knock s timeout evs
    if r.2.1.isSuccess then
      let rs := cycleKnock rest timeout
      ((r.1, r.2.2) :: rs.1, rs.2)
    else ((r.1, r.2.2) :: rest.map (fun q => (q.1, [])), some r.2.1)

/-! ## `watcher.py`: `ServerWatcher` index bookkeeping

Python `dict`s (insertion-ordered, unique keys) are modelled as association
lists with explicit dict operations; `WatchedServer` objects are modelled
with an explicit object identity `oid` (Python's `list.remove` and the
back-references compare by object identity, since no `__eq__` is defined).
The storage collaborator (the SQL `server` table) is not part of `src/`; its
behaviour is modelled from the spec where noted. -/

/-- The identity-relevant fields of a `WatchedServer`. -/
structure WServer where
  oid : Nat
  id : Nat
  guild : Nat
  remote : String
  label : Option String
  deriving DecidableEq, Repr

/-- A persisted registration row of the `server` table. -/
structure DBRow where
  id : Nat
  guild : Nat
  remote : String
  label : Option String
  deriving DecidableEq, Repr

/-- `k in d` for a Python dict. -/
def dictMem (d : List (Nat × α)) (k : Nat) : Bool :=
  d.any (fun p => p.1 = k)

/-- `d[k] = v`: replaces the value in place if the key exists (Python keeps
the original insertion position), otherwise appends the new entry. -/
def dictSet (d : List (Nat × α)) (k : Nat) (v : α) : List (Nat × α) :=
  if dictMem d k then d.map (fun p => if p.1 = k then (k, v) else p)
  else d ++ [(k, v)]

/-- `d[k]` with default, as in reading `self.servers_by_guild[g]` right after
membership was checked (default never surfaces). -/
def dictGetD (d : List (Nat × α)) (k : Nat) (v₀ : α) : α :=
  match d.find? (fun p => p.1 = k) with
  | some p => p.2
  | none => v₀

/-- `d.get(k, None)` / `d[k]` lookup. -/
def dictGet? (d : List (Nat × α)) (k : Nat) : Option α :=
  (d.find? (fun p => p.1 = k)).map (fun p => p.2)

/-- `d.pop(k)`: `none` models the `KeyError` on a missing key. -/
def dictPop (d : List (Nat × α)) (k : Nat) : Option (List (Nat × α)) :=
  if dictMem d k then some (d.filter (fun p => ¬ p.1 = k)) else none

/-- `l.remove(x)`: removes the first occurrence; `none` models `ValueError`. -/
def listRemove [DecidableEq α] (l : List α) (x : α) : Option (List α) :=
  if x ∈ l then some (l.erase x) else none

/-- The in-memory indices of a `ServerWatcher`, together with the persisted
table contents and the next fresh object identity. -/
structure WatcherSt where
  db : List DBRow
  servers : List (Nat × WServer)
  byGuild : List (Nat × List WServer)
  nextOid : Nat
  deriving DecidableEq, Repr

/-- `ServerWatcher._append(server)`: primary index write plus group-index
append (`if gid in keys: list.append(server) else: [server]`). -/
def WatcherSt.append (st : WatcherSt) (s : WServer) : WatcherSt :=
  { st with
    servers := dictSet st.servers s.id s
    byGuild :=
      if dictMem st.byGuild s.guild then
        dictSet st.byGuild s.guild (dictGetD st.byGuild s.guild [] ++ [s])
      else dictSet st.byGuild s.guild [s] }

/-- Modelled from the spec: the storage collaborator's
insert-new-registration operation (§6), which "assigns an id" to the new row,
and §7's "Registration errors (duplicate remote, storage failure)" policy of
rejecting a duplicate remote.  The SQL schema is external to `src/`; fresh
ids are modelled as `max + 1` and a duplicate-remote insert fails
(`none`), in which case the exception propagates and, as `_append` runs only
after the commit, no in-memory state changes. -/
def dbInsert (db : List DBRow) (guild : Nat) (remote : String)
    (label : Option String) : Option (DBRow × List DBRow) :=
  if db.any (fun r => r.remote = remote) then none
  else
    let id := (db.map (fun r => r.id)).foldl max 0 + 1
    let row : DBRow := { id := id, guild := guild, remote := remote, label := label }
    some (row, db ++ [row])

/-- `ServerWatcher.add(guild, remote, label)`: persist, then construct the
`WatchedServer` and `_append` it. -/
def WatcherSt.add (st : WatcherSt) (guild : Nat) (remote : String)
    (label : Option String) : Option WatcherSt :=
  match dbInsert st.db guild remote label with
  | none => none
  | some (row, db') =>
    let s : WServer :=
      { oid := st.nextOid, id := row.id, guild := guild, remote := remote,
        label := label }
    some (WatcherSt.append
      { st with db := db', nextOid := st.nextOid + 1 } s)

/-- `ServerWatcher.remove(server)`: DB delete, `self.servers.pop(server.id)`,
then removal of the object from its guild list when the guild key exists.
`none` models a propagating `KeyError`/`ValueError` (the partially mutated
state of a failed remove is not modelled further; the claims quantify over
successful operation sequences). -/
def WatcherSt.removeServer (st : WatcherSt) (s : WServer) : Option WatcherSt :=
  let db' := st.db.filter (fun r => ¬ r.id = s.id)
  match dictPop st.servers s.id with
  | none => none
  | some servers' =>
    let st := { st with db := db', servers := servers' }
    if dictMem st.byGuild s.guild then
      match listRemove (dictGetD st.byGuild s.guild []) s with
      | none => none
      | some l' => some { st with byGuild := dictSet st.byGuild s.guild l' }
    else some st

/-- `ServerWatcher.load()`: `_append` one freshly constructed `WatchedServer`
per persisted row.  Nothing clears the indices first. -/
def WatcherSt.load (st : WatcherSt) : WatcherSt :=
  st.db.foldl
    (fun acc row =>
      WatcherSt.append { acc with nextOid := acc.nextOid + 1 }
        { oid := acc.nextOid, id := row.id, guild := row.guild,
          remote := row.remote, label := row.label })
    st

/-- The watcher operations a consumer can issue.  `removeId i` stands for
`remove(server)` where `server` is the currently tracked object with id `i`
(obtained from `add`/`iter`). -/
inductive WOp where
  | add (guild : Nat) (remote : String) (label : Option String)
  | removeId (id : Nat)
  | loadOp
  deriving DecidableEq, Repr

/-- One operation applied to the watcher state; `none` when the Python call
would raise. -/
def WatcherSt.step (st : WatcherSt) : WOp → Option WatcherSt
  | .add g r l => st.add g r l
  | .removeId i =>
    match dictGet? st.servers i with
    | some s => st.removeServer s
    | none => none
  | .loadOp => some st.load

/-- A sequence of watcher operations. -/
def WatcherSt.run (st : WatcherSt) (ops : List WOp) : Option WatcherSt :=
  ops.foldl (fun acc op => acc.bind (fun st => st.step op)) (some st)

/-- The state invariant of claim C10, as a decidable proposition:

* the primary mapping has no duplicate keys and each entry is keyed by its
  server's id;
* every tracked server's registration is present in storage (id and remote);
* storage has no duplicate ids and no duplicate remotes — hence at most one
  tracked `WatchedServer` per remote-endpoint identity;
* the group index has no duplicate keys, each group list holds only servers
  of that group, and the multiset of group-index references coincides with
  the primary mapping's values (no dangling or missing cross-references). -/
def WatcherInv (st : WatcherSt) : Prop :=
  (st.servers.map Prod.fst).Nodup ∧
  (∀ p ∈ st.servers, p.2.id = p.1) ∧
  (∀ p ∈ st.servers, ∃ r ∈ st.db, r.id = p.1 ∧ r.remote = p.2.remote) ∧
  (st.db.map DBRow.id).Nodup ∧
  (st.db.map DBRow.remote).Nodup ∧
  (st.byGuild.map Prod.fst).Nodup ∧
  (∀ q ∈ st.byGuild, ∀ s ∈ q.2, s.guild = q.1) ∧
  (st.byGuild.flatMap Prod.snd).Perm (st.servers.map Prod.snd)

instance (st : WatcherSt) : Decidable (WatcherInv st) := by
  unfold WatcherInv
  infer_instance

/-! ## Concrete inputs used by the claim theorems -/

/-- A 5795-byte datagram whose first four bytes store, little-endian, the
32-bit wraparound checksum of the rest (`656613`), as a real peer computing
the checksum in `uint32` arithmetic would emit: the unbounded sum
`0x1234567 + 12*3 + Σ 255*(i+1)` reaches `4295623909 ≥ 2^32`. -/
def c1buf : List Nat := [229, 4, 10, 0] ++ [0, 0, 12, 0] ++ List.replicate 5787 255

/-- A correctly checksummed 8-byte frame with type tag 32 (TELLFILESNEEDED):
the tag passes the `valid_packet_kinds` test but has no `packet_types`
entry. -/
def tag32buf : List Nat := [199, 69, 35, 1, 0, 0, 32, 0]

/-- A correctly checksummed SERVERINFO datagram whose `kartvars` byte (payload
offset 53) has low bits `3`, which is not a `GameSpeed` member. -/
def kartvars3buf : List Nat :=
  [60, 70, 35, 1] ++ [0, 0, 13, 0] ++ (List.replicate 53 0 ++ [3] ++ List.replicate 350 0)

/-- A correctly checksummed SERVERINFO datagram whose payload is truncated to
10 bytes (the format needs 404). -/
def truncbuf : List Nat := [142, 69, 35, 1] ++ [0, 0, 13, 0] ++ List.replicate 10 0

/-- A correctly checksummed SERVERINFO datagram with an all-zero 404-byte
payload: it decodes to `siZero` (advertising zero players). -/
def siDatagram : List Nat := [142, 69, 35, 1] ++ [0, 0, 13, 0] ++ List.replicate 404 0

/-- A correctly checksummed PLAYERINFO datagram with all 16 slots empty
(`num = 255`). -/
def piDatagram : List Nat :=
  [97, 100, 52, 1] ++ [0, 0, 14, 0] ++ (List.replicate 16 (255 :: List.replicate 35 0)).flatten

/-- The `ServerInfo` decoded from `siDatagram`. -/
def siZero : ServerInfo :=
  { application := [], version := 0, subversion := 0, commit := [0, 0, 0, 0],
    gametype_name := [], server_name := [], number_of_players := 0,
    max_players := 0, modified_game := false, cheats_enabled := false,
    avg_mobiums := 0, game_speed := .easy, flags := 0, refuse_reason := .ok,
    time := 0, level_time := 0, map_title := [],
    map_md5 := List.replicate 16 0, actnum := 0, is_zone := false,
    number_of_files := 0, http_source := [] }

/-- An 8-byte frame whose stored checksum (0) is wrong. -/
def badbuf : List Nat := [0, 0, 0, 0, 0, 0, 12, 0]

/-- An event trace that completes a knock: one server-info reply advertising
zero players, then one player-info reply with only empty slots. -/
def okEvs : List NetEvent := [.recv 1 siDatagram, .recv 1 piDatagram]

/-- The fresh accumulator state at the start of `_get_info`. -/
def st0 : KnockState :=
  { info := none, players := [], last_sent := none, tries := 0, now := 0, pings := [] }

/-! # Theorems

First some shared lemmas about the checksum accumulation, then one theorem
(plus counterexample/witness where applicable) per claim. -/

/-- Closed form of the accumulation over a constant buffer (stated doubled to
avoid natural division): the span `replicate n b` starting at weight `w`
contributes `b * (w + (w+1) + ... + (w+n-1))`. -/
theorem net_checksum_go_replicate (b : Nat) :
    ∀ n w acc, 2 * net_checksum_go (List.replicate n b) w acc =
      2 * acc + b * (2 * w + n - 1) * n
  | 0, w, acc => by simp [net_checksum_go]
  | n + 1, w, acc => by
    have h := net_checksum_go_replicate b n (w + 1) (acc + b * w)
    simp only [List.replicate_succ, net_checksum_go] at h ⊢
    rw [h]
    have h2 : 2 * (w + 1) + n - 1 = 2 * w + n + 1 := by omega
    have h3 : 2 * w + (n + 1) - 1 = 2 * w + n := by omega
    rw [h2, h3]
    ring

/-- The accumulator can be reduced modulo 2^32 at any point without changing
the result modulo 2^32. -/
theorem net_checksum_go_mod (l : List Nat) :
    ∀ w acc, net_checksum_go l w acc % 2 ^ 32 =
      net_checksum_go l w (acc % 2 ^ 32) % 2 ^ 32 := by
  induction l with
  | nil => intro w acc; simp only [net_checksum_go]; omega
  | cons b rest ih =>
    intro w acc
    simp only [net_checksum_go]
    rw [ih (w + 1) (acc + b * w), ih (w + 1) (acc % 2 ^ 32 + b * w)]
    have h : (acc + b * w) % 2 ^ 32 = (acc % 2 ^ 32 + b * w) % 2 ^ 32 := by omega
    rw [h]

/-- The spec's per-step-wraparound accumulation computes exactly the
unbounded accumulation reduced modulo 2^32. -/
theorem net_checksum_spec32_go_eq (l : List Nat) :
    ∀ w acc, acc < 2 ^ 32 →
      net_checksum_spec32_go l w acc = net_checksum_go l w acc % 2 ^ 32 := by
  induction l with
  | nil => intro w acc hacc; simp only [net_checksum_spec32_go, net_checksum_go]; omega
  | cons b rest ih =>
    intro w acc _hacc
    simp only [net_checksum_spec32_go, net_checksum_go]
    rw [ih (w + 1) ((acc + b * w) % 2 ^ 32) (Nat.mod_lt _ (by norm_num)),
      ← net_checksum_go_mod]

/-- The spec-side checksum is the code-side checksum reduced modulo 2^32. -/
theorem net_checksum_spec32_eq (packet : List Nat) :
    net_checksum_spec32 packet = net_checksum packet 4 % 2 ^ 32 := by
  unfold net_checksum_spec32 net_checksum
  exact net_checksum_spec32_go_eq _ 1 _ (by norm_num)

/-- One accumulation step, definitionally. -/
theorem net_checksum_go_cons (b : Nat) (rest : List Nat) (w acc : Nat) :
    net_checksum_go (b :: rest) w acc = net_checksum_go rest (w + 1) (acc + b * w) := rfl

/-- The unbounded checksum of `c1buf` exceeds 2^32. -/
theorem net_checksum_c1buf : net_checksum c1buf 4 = 4295623909 := by
  have h := net_checksum_go_replicate 255 5787 5 19088779
  have e0 : c1buf.drop 4 = 0 :: 0 :: 12 :: 0 :: List.replicate 5787 255 := rfl
  have e1 : net_checksum c1buf 4 =
      net_checksum_go (List.replicate 5787 255) 5 19088779 := by
    unfold net_checksum
    rw [e0, net_checksum_go_cons, net_checksum_go_cons, net_checksum_go_cons,
      net_checksum_go_cons]
  rw [e1]
  omega

/-! ### C1 -/

/-- C1: the claim states the checksum is accumulated "in 32-bit wraparound
arithmetic" and that decode fails with a checksum mismatch exactly when the
stored little-endian field differs from that recomputation.  The code uses
unbounded Python integers instead: for `c1buf` the stored field equals the
claimed 32-bit recomputation, yet `Packet.unpack` raises
`BadChecksumError`, because the code's unbounded accumulator (4295623909)
can never equal any 32-bit stored value once the sum reaches 2^32. -/
theorem C1_stored_wraparound_checksum_rejected :
    fromLE (c1buf.take 4) = net_checksum_spec32 c1buf ∧
    Packet.unpack c1buf = .error (.badChecksum 656613) ∧
    2 ^ 32 ≤ net_checksum c1buf 4 := by
  have hval := net_checksum_c1buf
  have htake : fromLE (c1buf.take 4) = 656613 := by decide
  have hspec : net_checksum_spec32 c1buf = 656613 := by
    rw [net_checksum_spec32_eq, hval]
    norm_num
  have hlen : c1buf.length = 5795 := by
    simp only [c1buf, List.length_append, List.length_replicate, List.length_cons,
      List.length_nil]
  refine ⟨by rw [htake, hspec], ?_, by rw [hval]; norm_num⟩
  simp only [Packet.unpack, hlen, htake, hval]
  norm_num

/-! ### C2 -/

set_option maxRecDepth 8000 in
/-- C2: the claim says decode never raises an unclassified exception — every
malformed-input path yields one of the three typed `PacketError`s.  Three
counterexamples: a validly checksummed frame with tag 32 (no registered
decoder) raises `NotImplementedError`; a SERVERINFO payload whose kartvars
low bits are 3 raises `ValueError`; a truncated SERVERINFO payload raises
`struct.error`.  None of these is a `PacketError`, so all three escape the
`except PacketError` handler in `Server._get_info`. -/
theorem C2_unpack_raises_unclassified_exceptions :
    (Packet.unpack tag32buf = .error .notImplemented ∧
      PyExc.isPacketError .notImplemented = false) ∧
    (Packet.unpack kartvars3buf = .error .valueError ∧
      PyExc.isPacketError .valueError = false) ∧
    (Packet.unpack truncbuf = .error .structError ∧
      PyExc.isPacketError .structError = false) := by
  decide

/-! ### C3 -/

/-- C3 counterexample: already for the ask payload type the round trip fails:
encoding the default ask packet succeeds, but decoding the resulting bytes
raises `NotImplementedError` (from `AskPacket.unpack_inner`), so
`decode(encode(p)) == p` holds for no registered payload type. -/
theorem C3_ask_roundtrip_raises :
    (Packet.pack (.ask AskPacket.make)).bind Packet.unpack =
      .error .notImplemented := by
  decide

/-- Little-endian 32-bit encode/decode round trip. -/
theorem fromLE_u32le (c : Nat) (hc : c < 2 ^ 32) : fromLE (u32le c) = c := by
  simp only [fromLE, u32le, List.foldr]
  omega

/-- `Packet.pack` on an ask packet with in-range fields. -/
theorem ask_pack_eq (v t : Nat) (hv : v < 256) (ht : t < 2 ^ 32) :
    Packet.pack (.ask ⟨v, t⟩) =
      .ok (u32le (net_checksum ([0, 0, 12, 0] ++ ([v] ++ [0, 0, 0] ++ u32le t)) 0) ++
        ([0, 0, 12, 0] ++ ([v] ++ [0, 0, 0] ++ u32le t))) := by
  have hc : net_checksum ([0, 0, 12, 0] ++ ([v] ++ [0, 0, 0] ++ u32le t)) 0 < 2 ^ 32 := by
    simp only [net_checksum, List.drop_zero, u32le, List.cons_append, List.nil_append,
      net_checksum_go]
    omega
  simp only [Packet.pack, Packet.pack_inner, Packet.packet_type, struct_pack_BI,
    struct_pack_I, if_pos (And.intro hv ht), if_pos hc, bind, Except.bind, pure,
    Except.pure]

/-- Decoding the bytes produced by encoding an in-range ask packet raises
`NotImplementedError` (the dispatch reaches `AskPacket.unpack_inner`). -/
theorem ask_roundtrip_eq (v t : Nat) (hv : v < 256) (ht : t < 2 ^ 32) :
    (Packet.pack (.ask ⟨v, t⟩)).bind Packet.unpack = .error .notImplemented := by
  rw [ask_pack_eq v t hv ht]
  have hc : net_checksum ([0, 0, 12, 0] ++ ([v] ++ [0, 0, 0] ++ u32le t)) 0 < 2 ^ 32 := by
    simp only [net_checksum, List.drop_zero, u32le, List.cons_append, List.nil_append,
      net_checksum_go]
    omega
  set c := net_checksum ([0, 0, 12, 0] ++ ([v] ++ [0, 0, 0] ++ u32le t)) 0 with hcdef
  set buf : List Nat := [0, 0, 12, 0] ++ ([v] ++ [0, 0, 0] ++ u32le t) with hbufdef
  show Packet.unpack (u32le c ++ buf) = .error .notImplemented
  have hlen : (u32le c ++ buf).length = 16 := rfl
  have htake : (u32le c ++ buf).take 4 = u32le c := rfl
  have hget : (u32le c ++ buf).getD 6 0 = 12 := rfl
  have hchk : net_checksum (u32le c ++ buf) 4 = c := by
    rw [hcdef]
    unfold net_checksum
    rfl
  simp only [Packet.unpack, hlen, htake, hchk, fromLE_u32le c hc, hget]
  norm_num [valid_packet_kinds, AskPacket.unpack_inner]

/-- C3 (amended): no registered payload type satisfies the round trip.
Encode-then-decode always raises: the ask type encodes but its decoder
raises `NotImplementedError` (and out-of-range fields already fail in
`struct.pack`); the server-info and player-info reply types have no encoder
(`pack_inner` raises `NotImplementedError`). -/
theorem C3_no_registered_type_roundtrips (p : Packet) :
    ∃ e, (Packet.pack p).bind Packet.unpack = .error e := by
  cases p with
  | ask a =>
    cases a with
    | mk v t =>
      by_cases h : v < 256 ∧ t < 2 ^ 32
      · exact ⟨.notImplemented, ask_roundtrip_eq v t h.1 h.2⟩
      · refine ⟨.structError, ?_⟩
        simp only [Packet.pack, Packet.pack_inner, struct_pack_BI, if_neg h, bind,
          Except.bind]
  | serverInfo i => exact ⟨.notImplemented, rfl⟩
  | playerInfo ps => exact ⟨.notImplemented, rfl⟩

/-! ### C4 -/

/-- C4 counterexample: the claim says encoding an ask request produces a
13-byte datagram (8-byte header + 1 version byte + 4 time bytes).  The code
produces 16 bytes: `struct.pack("BI", ...)` is in native mode, which aligns
the `I` field and inserts three padding bytes after the version byte. -/
theorem C4_ask_datagram_is_16_bytes :
    Packet.pack (.ask AskPacket.make) =
      .ok [149, 69, 35, 1, 0, 0, 12, 0, 2, 0, 0, 0, 0, 0, 0, 0] ∧
    ([149, 69, 35, 1, 0, 0, 12, 0, 2, 0, 0, 0, 0, 0, 0, 0] : List Nat).length ≠ 13 := by
  decide

/-- C4 (amended): encoding an ask request produces a 16-byte datagram:
4-byte little-endian checksum, two zero bytes, the ask type tag 12, one zero
byte, the version byte, three zero padding bytes from native struct
alignment, then the 4-byte time field — which is always zero because the
constructor ignores its `time` argument. -/
theorem C4_ask_datagram_layout (v t : Nat) (hv : v < 256) :
    Packet.pack (.ask (AskPacket.make v t)) =
      .ok (u32le (net_checksum ([0, 0, 12, 0] ++ ([v] ++ [0, 0, 0] ++ u32le 0)) 0) ++
        ([0, 0, 12, 0] ++ ([v] ++ [0, 0, 0] ++ u32le 0))) :=
  ask_pack_eq v 0 hv (by norm_num)

/-- Witness for C4 at version 2 (the default), time argument 7. -/
theorem C4_ask_datagram_layout_witness :
    2 < 256 ∧
    Packet.pack (.ask (AskPacket.make 2 7)) =
      .ok (u32le (net_checksum ([0, 0, 12, 0] ++ ([2] ++ [0, 0, 0] ++ u32le 0)) 0) ++
        ([0, 0, 12, 0] ++ ([2] ++ [0, 0, 0] ++ u32le 0))) :=
  ⟨by norm_num, C4_ask_datagram_layout 2 7 (by norm_num)⟩

/-! ### C7 -/

/-- C7: the claim says the window holds at most 5 samples and each sample is
a whole number of milliseconds.  After six knocks whose replies each arrive
1.5 ms after the ask (the update `record_ping` is applied six times, one per
first reply), the window holds 6 samples (`pop(0)` only fires once the
length already exceeds 5), each a non-integral rational (denominator 2,
contradicting the `pings: List[int]` annotation), and `ping` is the mean of
those 6 retained samples. -/
theorem C7_ping_window_reaches_six_fractional_samples :
    ((List.replicate 6 ((3 : ℚ) / 2)).foldl record_ping []).length = 6 ∧
    ((3 : ℚ) / 2).den = 2 ∧
    Server.ping { pings := (List.replicate 6 ((3 : ℚ) / 2)).foldl record_ping [] } =
      some ((3 : ℚ) / 2) := by
  decide

/-! ### C5 -/

/-- C5 counterexample: the claim says a datagram whose decode fails with a
decode-level error does not consume an attempt from the retry budget.
Processing one bad-checksum datagram leaves the knock running (`blocked`,
still listening) but the attempt counter has moved from 0 to 1: the
`except PacketError` handler executes `tries += 1`. -/
theorem C5_decode_error_consumes_attempt :
    Server.get_info {} 5 [.recv 1 badbuf] =
      ({ info := none, players := [], last_sent := some 0, tries := 1, now := 1,
         pings := [1000] }, .blocked) := by
  decide

/-- C5 (amended): a datagram whose decode fails with a `PacketError` is a
no-op for the accumulated data and does not abort the knock — the loop
continues (`.inl`) with `info` and `players` unchanged — but it consumes one
attempt: the attempt counter is incremented. -/
theorem C5_decode_error_increments_tries (timeoutAt : ℚ) (st : KnockState)
    (elapsed : ℚ) (buf : List Nat) (e : PyExc)
    (hdec : Packet.unpack buf = .error e) (hpe : e.isPacketError = true) :
    ∃ st', getInfoStep timeoutAt st (.recv elapsed buf) = .inl st' ∧
      st'.tries = st.tries + 1 ∧ st'.info = st.info ∧ st'.players = st.players := by
  unfold getInfoStep
  simp only [hdec, hpe, if_true]
  by_cases hsb : st.last_sent.all (fun x => decide (x < st.tries)) = true
  · simp only [hsb, if_true]
    exact ⟨_, rfl, rfl, rfl, rfl⟩
  · simp only [eq_false_of_ne_true hsb, if_false]
    exact ⟨_, rfl, rfl, rfl, rfl⟩

/-- Witness for C5 (amended) on one concrete bad-checksum datagram. -/
theorem C5_decode_error_increments_tries_witness :
    Packet.unpack badbuf = .error (.badChecksum 0) ∧
    (PyExc.badChecksum 0).isPacketError = true ∧
    (∃ st', getInfoStep 5 st0 (.recv 1 badbuf) = .inl st' ∧
      st'.tries = st0.tries + 1 ∧ st'.info = st0.info ∧ st'.players = st0.players) :=
  ⟨by decide, by decide,
    C5_decode_error_increments_tries 5 st0 1 badbuf (.badChecksum 0) (by decide) (by decide)⟩

/-! ### C6 -/

/-- C6: a knock that never receives any reply fails with `ConnectError` after
exactly the configured retry budget `k` of attempts: the first attempt sends
the ask and waits out the whole remaining time (its per-attempt timeout is
the time to the overall deadline `T`), the remaining attempts are skipped
because the deadline has passed, and the loop exits with `tries = k` and
raises.  The elapsed time is `T - 0 = T`, within the claimed bound of the
overall deadline plus one attempt timeout. -/
theorem C6_no_reply_fails_after_budget (T : ℚ) (k : Nat) (hT : 0 < T) (hk : 0 < k) :
    Server.get_info { tries := k } T [.timedOut] =
      ({ info := none, players := [], last_sent := some 0, tries := k, now := T,
         pings := [] }, .connectError k) ∧
    T - 0 ≤ T + T := by
  refine ⟨?_, by linarith⟩
  show getInfoLoop k T st0 [.timedOut] = _
  rw [show getInfoLoop k T st0 [.timedOut] =
      getInfoLoop k T { st0 with last_sent := some 0, now := T, tries := 1 } [] by
    simp only [getInfoLoop, getInfoStep, st0]
    rw [if_pos hk, if_neg (by simpa using not_le.mpr hT)]
    rfl]
  rcases Nat.lt_or_ge 1 k with hk1 | hk1
  · simp only [getInfoLoop, st0]
    rw [if_pos hk1, if_pos le_rfl]
    rfl
  · have hk2 : k = 1 := by omega
    subst hk2
    simp only [getInfoLoop, st0]
    rfl

/-- Witness for C6 at the default configuration: deadline 5 s, budget 5. -/
theorem C6_no_reply_fails_after_budget_witness :
    (0 : ℚ) < 5 ∧ 0 < 5 ∧
    (Server.get_info { tries := 5 } 5 [.timedOut] =
      ({ info := none, players := [], last_sent := some 0, tries := 5, now := 5,
         pings := [] }, .connectError 5) ∧
     (5 : ℚ) - 0 ≤ 5 + 5) :=
  ⟨by norm_num, by norm_num,
    C6_no_reply_fails_after_budget 5 5 (by norm_num) (by norm_num)⟩

/-! ### C9 -/

/-- C9 counterexample: the claim says every completed knock — success or
exhausted retries — signals the notification primitive exactly once.  A
knock that exhausts its retries raises `ConnectError` before the signalling
code runs, so the primitive is not touched at all: zero signals, and a
waiter never wakes for failed refreshes. -/
theorem C9_failed_knock_never_signals :
    (WatchedServer.knock {} 5 [.timedOut]).2.1 = .connectError 5 ∧
    (WatchedServer.knock {} 5 [.timedOut]).2.2 = [] := by
  decide

/-- C9 (amended): a knock that returns normally (success) performs exactly
`set()` immediately followed by `clear()` on the per-instance notification
primitive — signalled exactly once and immediately reset; a failed knock
propagates its exception without signalling. -/
theorem C9_success_signals_once_then_resets (s : Server) (T : ℚ) (evs : List NetEvent)
    (i : ServerInfo) (ps : List PlayerInfo)
    (h : (Server.knock s T evs).2 = .success i ps) :
    (WatchedServer.knock s T evs).2.2 = [.set, .clear] := by
  unfold WatchedServer.knock
  simp only [h, KnockOutcome.isSuccess, if_true]

set_option maxRecDepth 8000 in
/-- Witness for C9 (amended) on a concrete successful knock. -/
theorem C9_success_signals_once_then_resets_witness :
    (Server.knock {} 5 okEvs).2 = .success siZero [] ∧
    (WatchedServer.knock {} 5 okEvs).2.2 = [.set, .clear] :=
  ⟨by decide, C9_success_signals_once_then_resets {} 5 okEvs siZero [] (by decide)⟩

/-! ### C8 -/

set_option maxRecDepth 8000 in
/-- C8 counterexample: the claim says a failed knock for server A does not
prevent knocking server B in the same poll cycle.  With A first in iteration
order and timing out, the `ConnectError` propagates out of the cycle loop:
B's stored info is not updated and B's primitive is not signalled — even
though B's knock would have succeeded on its own trace (second conjunct). -/
theorem C8_failed_knock_aborts_cycle :
    cycleKnock [({}, [.timedOut]), ({}, okEvs)] 5 =
      ([({}, []), ({}, [])], some (.connectError 5)) ∧
    (Server.knock {} 5 okEvs).2 = .success siZero [] := by
  constructor
  · decide
  · decide

/-- C8 (amended): the first knock of a poll cycle that raises aborts the
cycle at that server: the failed server's stored `info`/`players` are left
unchanged (only its ping window may have been touched), every later server
is left exactly as it was — not knocked, not signalled, and still present in
the cycle's server list (nothing is removed from tracking). -/
theorem C8_cycle_aborts_at_failure (a : Server) (evsA : List NetEvent)
    (rest : List (Server × List NetEvent)) (T : ℚ)
    (h : (Server.knock a T evsA).2.isSuccess = false) :
    cycleKnock ((a, evsA) :: rest) T =
      (((Server.knock a T evsA).1, []) :: rest.map (fun q => (q.1, [])),
        some (Server.knock a T evsA).2) ∧
    (Server.knock a T evsA).1.info = a.info ∧
    (Server.knock a T evsA).1.players = a.players := by
  refine ⟨?_, ?_, ?_⟩
  · show (let r := WatchedServer.knock a T evsA
          if r.2.1.isSuccess then
            let rs := cycleKnock rest T
            ((r.1, r.2.2) :: rs.1, rs.2)
          else ((r.1, r.2.2) :: rest.map (fun q => (q.1, [])), some r.2.1)) = _
    unfold WatchedServer.knock
    simp [h]
  · unfold Server.knock
    rcases he : Server.get_info a T evsA with ⟨st, out⟩
    cases out <;> simp_all [Server.knock, KnockOutcome.isSuccess, he]
  · unfold Server.knock
    rcases he : Server.get_info a T evsA with ⟨st, out⟩
    cases out <;> simp_all [Server.knock, KnockOutcome.isSuccess, he]

set_option maxRecDepth 8000 in
/-- Witness for C8 (amended): server A times out, server B's trace would
succeed; the cycle aborts after A and B is untouched. -/
theorem C8_cycle_aborts_at_failure_witness :
    (Server.knock {} 5 [.timedOut]).2.isSuccess = false ∧
    (cycleKnock [(({} : Server), [NetEvent.timedOut]), (({} : Server), okEvs)] 5 =
      (((Server.knock {} 5 [.timedOut]).1, []) ::
          [(({} : Server), okEvs)].map (fun q => (q.1, [])),
        some (Server.knock {} 5 [.timedOut]).2) ∧
     (Server.knock {} 5 [.timedOut]).1.info = ({} : Server).info ∧
     (Server.knock {} 5 [.timedOut]).1.players = ({} : Server).players) :=
  ⟨by decide, C8_cycle_aborts_at_failure {} [.timedOut] [({}, okEvs)] 5 (by decide)⟩

/-! ### C10

Lemmas about the association-list model of Python dicts, then preservation
of `WatcherInv` by each watcher operation. -/

theorem dictMem_iff {α : Type} (d : List (Nat × α)) (k : Nat) :
    dictMem d k = true ↔ k ∈ d.map Prod.fst := by
  simp only [dictMem, List.any_eq_true, decide_eq_true_eq, List.mem_map]

theorem dictSet_of_not_mem {α : Type} {d : List (Nat × α)} {k : Nat} (v : α)
    (h : ¬ k ∈ d.map Prod.fst) : dictSet d k v = d ++ [(k, v)] := by
  unfold dictSet
  rw [if_neg]
  simp only [dictMem_iff]
  exact h

theorem map_setter_id {α : Type} {d : List (Nat × α)} {k : Nat} (v : α)
    (h : ¬ k ∈ d.map Prod.fst) :
    d.map (fun p => if p.1 = k then (k, v) else p) = d := by
  induction d with
  | nil => rfl
  | cons q rest ih =>
    rw [List.map_cons, List.mem_cons, not_or] at h
    rw [List.map_cons, if_neg (fun hq => h.1 hq.symm), ih h.2]

theorem dictSet_cons_ne {α : Type} {k' k : Nat} (v' : α) (d : List (Nat × α)) (v : α)
    (h : k' ≠ k) : dictSet ((k', v') :: d) k v = (k', v') :: dictSet d k v := by
  unfold dictSet dictMem
  by_cases hm : (d.any fun p => decide (p.1 = k)) = true
  · rw [if_pos (by simp [List.any_cons, hm]), if_pos hm]
    simp [List.map_cons, h]
  · rw [if_neg (by simp [List.any_cons, hm]; exact h), if_neg hm]
    rfl

theorem dictSet_cons_eq {α : Type} {k : Nat} (v' : α) (d : List (Nat × α)) (v : α)
    (h : ¬ k ∈ d.map Prod.fst) : dictSet ((k, v') :: d) k v = (k, v) :: d := by
  unfold dictSet dictMem
  rw [if_pos (by simp)]
  simp [List.map_cons, map_setter_id v h]

theorem dictGetD_cons_eq {α : Type} {k : Nat} (v' : α) (d : List (Nat × α)) (v₀ : α) :
    dictGetD ((k, v') :: d) k v₀ = v' := by
  unfold dictGetD
  simp

theorem dictGetD_cons_ne {α : Type} {k' k : Nat} (v' : α) (d : List (Nat × α)) (v₀ : α)
    (h : k' ≠ k) : dictGetD ((k', v') :: d) k v₀ = dictGetD d k v₀ := by
  unfold dictGetD
  simp [List.find?_cons, h]

theorem dictGetD_of_not_mem {α : Type} {d : List (Nat × α)} {k : Nat} (v₀ : α)
    (h : ¬ k ∈ d.map Prod.fst) : dictGetD d k v₀ = v₀ := by
  unfold dictGetD
  rw [List.find?_eq_none.mpr]
  intro p hp
  simp only [decide_eq_true_eq]
  intro hk
  exact h (List.mem_map.mpr ⟨p, hp, hk⟩)

theorem dictGetD_mem {α : Type} {d : List (Nat × α)} {k : Nat} (v₀ : α)
    (hmem : dictMem d k = true) :
    ∃ q ∈ d, q.1 = k ∧ dictGetD d k v₀ = q.2 := by
  rcases hf : d.find? (fun p => decide (p.1 = k)) with _ | p
  · exfalso
    rw [dictMem_iff] at hmem
    rw [List.find?_eq_none] at hf
    rcases List.mem_map.mp hmem with ⟨q, hq, hk⟩
    exact absurd (by simpa using hk) (by simpa using hf q hq)
  · refine ⟨p, List.mem_of_find?_eq_some hf, by simpa using List.find?_some hf, ?_⟩
    unfold dictGetD
    rw [hf]

theorem mem_dictSet {α : Type} {d : List (Nat × α)} {k : Nat} {v : α} {q : Nat × α}
    (h : q ∈ dictSet d k v) : q ∈ d ∨ q = (k, v) := by
  unfold dictSet at h
  by_cases hm : dictMem d k = true
  · rw [if_pos hm] at h
    rcases List.mem_map.mp h with ⟨p, hp, hq⟩
    by_cases hk : p.1 = k
    · right; rw [← hq]; simp [hk]
    · left; rw [← hq]; simpa [hk] using hp
  · rw [if_neg hm] at h
    rcases List.mem_append.mp h with h | h
    · exact Or.inl h
    · right; simpa using h

theorem keys_dictSet_of_mem {α : Type} {d : List (Nat × α)} {k : Nat} (v : α)
    (h : dictMem d k = true) :
    (dictSet d k v).map Prod.fst = d.map Prod.fst := by
  unfold dictSet
  rw [if_pos h, List.map_map]
  apply List.map_congr_left
  intro p _
  by_cases hk : p.1 = k
  · simp [hk]
  · simp [hk]

theorem eq_of_mem_keys_nodup {α : Type} {d : List (Nat × α)}
    (hnd : (d.map Prod.fst).Nodup) {p q : Nat × α}
    (hp : p ∈ d) (hq : q ∈ d) (hk : p.1 = q.1) : p = q :=
  List.inj_on_of_nodup_map hnd hp hq hk

theorem dictGetD_eq_of_mem {α : Type} {d : List (Nat × α)}
    (hnd : (d.map Prod.fst).Nodup) {q : Nat × α} (hq : q ∈ d) (v₀ : α) :
    dictGetD d q.1 v₀ = q.2 := by
  have hmem : dictMem d q.1 = true := (dictMem_iff d q.1).mpr (List.mem_map_of_mem _ hq)
  rcases dictGetD_mem v₀ hmem with ⟨p, hp, hpk, hx⟩
  have : p = q := eq_of_mem_keys_nodup hnd hp hq hpk
  subst this
  exact hx

/-- The two branches of `_append`'s group-index update coincide with a single
`dictSet` (in the missing-key branch the looked-up default is `[]`). -/
theorem byGuild_update_unify (d : List (Nat × List WServer)) (g : Nat) (s : WServer) :
    (if dictMem d g then dictSet d g (dictGetD d g [] ++ [s]) else dictSet d g [s]) =
      dictSet d g (dictGetD d g [] ++ [s]) := by
  by_cases hm : dictMem d g = true
  · rw [if_pos hm]
  · rw [if_neg (by simp [hm]), dictGetD_of_not_mem]
    · rfl
    · intro hk
      exact hm ((dictMem_iff d g).mpr hk)

/-- Appending one server to its group's list adds exactly that server to the
multiset of group-index references. -/
theorem flatMap_dictSet_append (d : List (Nat × List WServer)) (g : Nat) (s : WServer)
    (hnd : (d.map Prod.fst).Nodup) :
    ((dictSet d g (dictGetD d g [] ++ [s])).flatMap Prod.snd).Perm
      (d.flatMap Prod.snd ++ [s]) := by
  induction d with
  | nil =>
    simp [dictSet, dictMem, dictGetD, List.flatMap]
  | cons q rest ih =>
    rcases q with ⟨k, l⟩
    rw [List.map_cons, List.nodup_cons] at hnd
    by_cases hk : k = g
    · subst hk
      rw [dictGetD_cons_eq, dictSet_cons_eq _ _ _ hnd.1]
      simp only [List.flatMap_cons, List.append_assoc]
      exact List.Perm.append_left l (List.perm_append_comm)
    · rw [dictGetD_cons_ne _ _ _ hk, dictSet_cons_ne _ _ _ hk]
      simp only [List.flatMap_cons, List.append_assoc]
      exact List.Perm.append_left l (ih hnd.2)

/-- Removing one occurrence of a server from its group's list removes exactly
that occurrence from the multiset of group-index references, provided every
list is correctly tagged and the server's guild is `g`. -/
theorem flatMap_dictSet_erase (d : List (Nat × List WServer)) (g : Nat) (s : WServer)
    (hnd : (d.map Prod.fst).Nodup)
    (htag : ∀ q ∈ d, ∀ x ∈ q.2, x.guild = q.1)
    (hg : s.guild = g)
    (hs : s ∈ dictGetD d g []) :
    (dictSet d g ((dictGetD d g []).erase s)).flatMap Prod.snd =
      (d.flatMap Prod.snd).erase s := by
  induction d with
  | nil => simp [dictGetD] at hs
  | cons q rest ih =>
    rcases q with ⟨k, l⟩
    rw [List.map_cons, List.nodup_cons] at hnd
    by_cases hk : k = g
    · subst hk
      rw [dictGetD_cons_eq] at hs
      rw [dictGetD_cons_eq, dictSet_cons_eq _ _ _ hnd.1]
      simp only [List.flatMap_cons]
      rw [List.erase_append_left _ hs]
    · have hsl : s ∉ l := by
        intro hmem
        exact hk ((htag (k, l) (List.mem_cons_self _ _) s hmem).symm.trans hg)
      rw [dictGetD_cons_ne _ _ _ hk] at hs
      rw [dictGetD_cons_ne _ _ _ hk, dictSet_cons_ne _ _ _ hk]
      simp only [List.flatMap_cons]
      rw [List.erase_append_right _ hsl,
        ih hnd.2 (fun q hq => htag q (List.mem_cons_of_mem _ hq)) hs]

/-- Popping the entry keyed `i` from the primary mapping removes exactly its
server from the mapping's values. -/
theorem filter_key_map_snd (d : List (Nat × WServer)) (i : Nat) (s : WServer)
    (hnd : (d.map Prod.fst).Nodup)
    (hid : ∀ p ∈ d, p.2.id = p.1)
    (hmem : (i, s) ∈ d) :
    ((d.filter (fun p => ¬ p.1 = i)).map Prod.snd) = (d.map Prod.snd).erase s := by
  induction d with
  | nil => simp at hmem
  | cons q rest ih =>
    rw [List.map_cons, List.nodup_cons] at hnd
    by_cases hq : q.1 = i
    · have hqs : q = (i, s) :=
        eq_of_mem_keys_nodup (by rw [List.map_cons]; exact List.nodup_cons.mpr hnd)
          (List.mem_cons_self _ _) hmem (by simpa using hq)
      subst hqs
      rw [List.filter_cons_of_neg (by simp [hq]), List.map_cons,
        List.erase_cons_head, List.filter_eq_self.mpr]
      intro p hp
      simp only [decide_eq_true_eq]
      intro hpk
      exact hnd.1 (List.mem_map.mpr ⟨p, hp, hpk⟩)
    · have hmem' : (i, s) ∈ rest := by
        rcases List.mem_cons.mp hmem with h | h
        · exact absurd (by rw [← h]) hq
        · exact h
      have hqs : ¬ q.2 = s := by
        intro he
        have h1 : q.2.id = q.1 := hid q (List.mem_cons_self _ _)
        have h2 : s.id = i := hid (i, s) (List.mem_cons_of_mem _ hmem')
        rw [he, h2] at h1
        exact hq h1.symm
      rw [List.filter_cons_of_pos (by simpa using hq), List.map_cons, List.map_cons,
        List.erase_cons_tail (by simpa using hqs),
        ih hnd.2 (fun p hp => hid p (List.mem_cons_of_mem _ hp)) hmem']

/-- Mapping-values distinctness follows from key distinctness, because each
value records its own key. -/
theorem values_nodup (d : List (Nat × WServer))
    (hnd : (d.map Prod.fst).Nodup) (hid : ∀ p ∈ d, p.2.id = p.1) :
    (d.map Prod.snd).Nodup := by
  refine List.Nodup.map_on ?_ (List.Nodup.of_map Prod.fst hnd)
  intro p hp q hq hpq
  refine eq_of_mem_keys_nodup hnd hp hq ?_
  rw [← hid p hp, ← hid q hq, hpq]

theorem le_foldl_max (l : List Nat) : ∀ a, a ≤ l.foldl max a := by
  induction l with
  | nil => intro a; exact le_rfl
  | cons b rest ih =>
    intro a
    exact le_trans (Nat.le_max_left a b) (ih (max a b))

theorem mem_le_foldl_max (l : List Nat) : ∀ a, ∀ x ∈ l, x ≤ l.foldl max a := by
  induction l with
  | nil => intro a x hx; simp at hx
  | cons b rest ih =>
    intro a x hx
    rcases List.mem_cons.mp hx with h | h
    · subst h
      exact le_trans (Nat.le_max_right a x) (le_foldl_max rest (max a x))
    · exact ih (max a b) x h

theorem dictGet?_mem {α : Type} {d : List (Nat × α)} {k : Nat} {v : α}
    (h : dictGet? d k = some v) : (k, v) ∈ d := by
  unfold dictGet? at h
  rcases hf : d.find? (fun p => decide (p.1 = k)) with _ | p
  · rw [hf] at h
    cases h
  · rw [hf] at h
    simp only [Option.map_some', Option.some.injEq] at h
    have hk : p.1 = k := by simpa using List.find?_some hf
    have hp := List.mem_of_find?_eq_some hf
    rw [← h, ← hk]
    exact hp

/-- `_append` of a server whose id is not yet tracked and whose registration
is persisted preserves the invariant. -/
theorem inv_append (st : WatcherSt) (s : WServer) (hinv : WatcherInv st)
    (hid : ¬ s.id ∈ st.servers.map Prod.fst)
    (hrow : ∃ r ∈ st.db, r.id = s.id ∧ r.remote = s.remote) :
    WatcherInv (st.append s) := by
  obtain ⟨h1, h2, h3, h4, h5, h6, h7, h8⟩ := hinv
  have hset : dictSet st.servers s.id s = st.servers ++ [(s.id, s)] :=
    dictSet_of_not_mem s hid
  have hbg : (if dictMem st.byGuild s.guild then
        dictSet st.byGuild s.guild (dictGetD st.byGuild s.guild [] ++ [s])
      else dictSet st.byGuild s.guild [s]) =
      dictSet st.byGuild s.guild (dictGetD st.byGuild s.guild [] ++ [s]) :=
    byGuild_update_unify _ _ _
  unfold WatcherSt.append
  rw [hbg, hset]
  refine ⟨?_, ?_, ?_, h4, h5, ?_, ?_, ?_⟩
  · rw [List.map_append]
    exact List.Nodup.append h1 (List.nodup_singleton _)
      (by simpa [List.disjoint_singleton] using hid)
  · intro p hp
    rcases List.mem_append.mp hp with hp | hp
    · exact h2 p hp
    · rw [List.mem_singleton.mp hp]
  · intro p hp
    rcases List.mem_append.mp hp with hp | hp
    · exact h3 p hp
    · rw [List.mem_singleton.mp hp]
      exact hrow
  · by_cases hm : dictMem st.byGuild s.guild = true
    · rw [keys_dictSet_of_mem _ hm]
      exact h6
    · rw [dictSet_of_not_mem _ (fun hk => hm ((dictMem_iff _ _).mpr hk)),
        List.map_append]
      exact List.Nodup.append h6 (List.nodup_singleton _)
        (by
          simp only [List.map_cons, List.map_nil, List.disjoint_singleton]
          exact fun hk => hm ((dictMem_iff _ _).mpr hk))
  · intro q hq x hx
    rcases mem_dictSet hq with hq | hq
    · exact h7 q hq x hx
    · subst hq
      rcases List.mem_append.mp hx with hx | hx
      · by_cases hm : dictMem st.byGuild s.guild = true
        · rcases dictGetD_mem [] hm with ⟨q', hq', hqk', hget'⟩
          rw [hget'] at hx
          exact (h7 q' hq' x hx).trans hqk'
        · rw [dictGetD_of_not_mem [] (fun hk => hm ((dictMem_iff _ _).mpr hk))] at hx
          cases hx
      · rw [List.mem_singleton.mp hx]
  · rw [List.map_append]
    exact (flatMap_dictSet_append _ _ _ h6).trans (h8.append_right _)

/-- The invariant implies at most one tracked server per remote endpoint. -/
theorem inv_remotes_nodup (st : WatcherSt) (hinv : WatcherInv st) :
    (st.servers.map (fun p => p.2.remote)).Nodup := by
  obtain ⟨h1, _h2, h3, _h4, h5, _, _, _⟩ := hinv
  refine List.Nodup.map_on ?_ (List.Nodup.of_map Prod.fst h1)
  intro p hp q hq hpq
  rcases h3 p hp with ⟨rp, hrp, hrpid, hrprem⟩
  rcases h3 q hq with ⟨rq, hrq, hrqid, hrqrem⟩
  have hr : rp = rq :=
    List.inj_on_of_nodup_map h5 hrp hrq (by rw [hrprem, hrqrem, hpq])
  refine eq_of_mem_keys_nodup h1 hp hq ?_
  rw [← hrpid, ← hrqid, hr]

/-- A successful `remove(server)` of a tracked server preserves the
invariant. -/
theorem inv_remove (st : WatcherSt) (s : WServer) (hinv : WatcherInv st)
    (hmem : (s.id, s) ∈ st.servers) {st' : WatcherSt}
    (h : st.removeServer s = some st') : WatcherInv st' := by
  obtain ⟨h1, h2, h3, h4, h5, h6, h7, h8⟩ := hinv
  have hpop : dictPop st.servers s.id =
      some (st.servers.filter (fun p => ¬ p.1 = s.id)) := by
    unfold dictPop
    rw [if_pos ((dictMem_iff _ _).mpr (List.mem_map.mpr ⟨(s.id, s), hmem, rfl⟩))]
  have hsv : s ∈ st.servers.map Prod.snd := List.mem_map.mpr ⟨(s.id, s), hmem, rfl⟩
  have hsf : s ∈ st.byGuild.flatMap Prod.snd := h8.mem_iff.mpr hsv
  rcases List.mem_flatMap.mp hsf with ⟨q, hq, hsq⟩
  have hqg : q.1 = s.guild := (h7 q hq s hsq).symm
  have hmemg : dictMem st.byGuild s.guild = true :=
    (dictMem_iff _ _).mpr (List.mem_map.mpr ⟨q, hq, hqg⟩)
  have hgetd : dictGetD st.byGuild s.guild [] = q.2 := by
    rw [← hqg]
    exact dictGetD_eq_of_mem h6 hq []
  have hsl : s ∈ dictGetD st.byGuild s.guild [] := by
    rw [hgetd]
    exact hsq
  have hrem : listRemove (dictGetD st.byGuild s.guild []) s =
      some ((dictGetD st.byGuild s.guild []).erase s) := by
    unfold listRemove
    rw [if_pos hsl]
  unfold WatcherSt.removeServer at h
  rw [hpop] at h
  simp only [hmemg, if_true, hrem] at h
  rw [Option.some.injEq] at h
  subst h
  refine ⟨?_, ?_, ?_, ?_, ?_, ?_, ?_, ?_⟩
  · exact List.Nodup.sublist (List.Sublist.map _ (List.filter_sublist _)) h1
  · intro p hp
    exact h2 p (List.mem_of_mem_filter hp)
  · intro p hp
    rcases List.mem_filter.mp hp with ⟨hp', hpk⟩
    rcases h3 p hp' with ⟨r, hr, hrid, hrrem⟩
    refine ⟨r, List.mem_filter.mpr ⟨hr, ?_⟩, hrid, hrrem⟩
    simp only [decide_eq_true_eq] at hpk ⊢
    rw [hrid]
    exact hpk
  · exact List.Nodup.sublist (List.Sublist.map _ (List.filter_sublist _)) h4
  · exact List.Nodup.sublist (List.Sublist.map _ (List.filter_sublist _)) h5
  · rw [keys_dictSet_of_mem _ hmemg]
    exact h6
  · intro q' hq' x hx
    rcases mem_dictSet hq' with hq' | hq'
    · exact h7 q' hq' x hx
    · subst hq'
      exact (h7 q hq x (by
        rw [hgetd] at hx
        exact List.mem_of_mem_erase hx)).trans hqg
  · rw [flatMap_dictSet_erase _ _ _ h6 h7 rfl hsl,
      filter_key_map_snd _ _ _ h1 h2 hmem]
    exact h8.erase s

/-- A successful `add` preserves the invariant: the modelled storage rejects
a duplicate remote and hands out a fresh id. -/
theorem inv_add (st : WatcherSt) (g : Nat) (rm : String) (lb : Option String)
    (hinv : WatcherInv st) {st' : WatcherSt} (h : st.add g rm lb = some st') :
    WatcherInv st' := by
  obtain ⟨h1, h2, h3, h4, h5, h6, h7, h8⟩ := hinv
  rcases hins : dbInsert st.db g rm lb with _ | ⟨row, db'⟩
  · unfold WatcherSt.add at h
    rw [hins] at h
    cases h
  · unfold WatcherSt.add at h
    rw [hins] at h
    rw [Option.some.injEq] at h
    subst h
    unfold dbInsert at hins
    by_cases hdup : (st.db.any fun r => decide (r.remote = rm)) = true
    · rw [if_pos hdup] at hins
      cases hins
    · rw [if_neg hdup] at hins
      rw [Option.some.injEq, Prod.mk.injEq] at hins
      obtain ⟨hrow, hdb⟩ := hins
      subst hrow
      subst hdb
      have hfresh : ∀ x ∈ st.db.map DBRow.id,
          x < (st.db.map (fun r => r.id)).foldl max 0 + 1 := by
        intro x hx
        exact Nat.lt_succ_of_le (mem_le_foldl_max _ 0 x hx)
      have hrm : ∀ r ∈ st.db, ¬ r.remote = rm := by
        intro r hr
        intro hrr
        exact hdup (List.any_eq_true.mpr ⟨r, hr, by simpa using hrr⟩)
      refine inv_append _ _ ⟨h1, h2, ?_, ?_, ?_, h6, h7, h8⟩ ?_ ?_
      · intro p hp
        rcases h3 p hp with ⟨r, hr, hrid, hrrem⟩
        exact ⟨r, List.mem_append_left _ hr, hrid, hrrem⟩
      · rw [List.map_append]
        refine List.Nodup.append h4 (List.nodup_singleton _) ?_
        simp only [List.map_cons, List.map_nil, List.disjoint_singleton]
        intro hk
        exact absurd rfl (Nat.ne_of_lt (hfresh _ hk)).symm
      · rw [List.map_append]
        refine List.Nodup.append h5 (List.nodup_singleton _) ?_
        simp only [List.map_cons, List.map_nil, List.disjoint_singleton]
        intro hk
        rcases List.mem_map.mp hk with ⟨r, hr, hrr⟩
        exact hrm r hr hrr
      · intro hk
        rcases List.mem_map.mp hk with ⟨p, hp, hpk⟩
        rcases h3 p hp with ⟨r, hr, hrid, _⟩
        have hmm : p.1 ∈ st.db.map DBRow.id := List.mem_map.mpr ⟨r, hr, hrid⟩
        have hlt := hfresh _ hmm
        rw [hpk] at hlt
        exact absurd rfl (Nat.ne_of_lt hlt)
      · refine ⟨_, List.mem_append_right _ (List.mem_singleton.mpr rfl), rfl, rfl⟩

/-- `load` from a well-formed table into a state that does not yet track any
of the loaded ids preserves the invariant (each row is appended with a fresh
object). -/
theorem inv_load_go (rows : List DBRow) :
    ∀ st : WatcherSt, WatcherInv st →
    (∀ r ∈ rows, r ∈ st.db) →
    (∀ r ∈ rows, ¬ r.id ∈ st.servers.map Prod.fst) →
    (rows.map DBRow.id).Nodup →
    WatcherInv (rows.foldl
      (fun acc row =>
        WatcherSt.append { acc with nextOid := acc.nextOid + 1 }
          { oid := acc.nextOid, id := row.id, guild := row.guild,
            remote := row.remote, label := row.label }) st) := by
  induction rows with
  | nil =>
    intro st hinv _ _ _
    exact hinv
  | cons row rest ih =>
    intro st hinv hsub hfresh hnd
    rw [List.foldl_cons]
    rw [List.map_cons, List.nodup_cons] at hnd
    have hinv1 : WatcherInv (WatcherSt.append { st with nextOid := st.nextOid + 1 }
        { oid := st.nextOid, id := row.id, guild := row.guild,
          remote := row.remote, label := row.label }) := by
      refine inv_append _ _ hinv ?_ ?_
      · exact hfresh row (List.mem_cons_self _ _)
      · exact ⟨row, hsub row (List.mem_cons_self _ _), rfl, rfl⟩
    have hserv : (WatcherSt.append { st with nextOid := st.nextOid + 1 }
        { oid := st.nextOid, id := row.id, guild := row.guild,
          remote := row.remote, label := row.label }).servers =
        st.servers ++
          [(row.id, WServer.mk st.nextOid row.id row.guild row.remote row.label)] := by
      unfold WatcherSt.append
      exact dictSet_of_not_mem _ (hfresh row (List.mem_cons_self _ _))
    refine ih _ hinv1 (fun r hr => hsub r (List.mem_cons_of_mem _ hr)) ?_ hnd.2
    intro r hr
    rw [hserv, List.map_append]
    intro hk
    rcases List.mem_append.mp hk with hk | hk
    · exact hfresh r (List.mem_cons_of_mem _ hr) hk
    · rw [List.map_cons, List.map_nil, List.mem_singleton] at hk
      have hk' : r.id = row.id := hk
      exact hnd.1 (List.mem_map.mpr ⟨r, hr, hk'⟩)

/-- The empty in-memory state over a well-formed table satisfies the
invariant. -/
theorem inv_init (db : List DBRow) (h4 : (db.map DBRow.id).Nodup)
    (h5 : (db.map DBRow.remote).Nodup) :
    WatcherInv { db := db, servers := [], byGuild := [], nextOid := 0 } := by
  exact ⟨by simp, by simp, by simp, h4, h5, by simp, by simp, by simp⟩

theorem run_from_none (ops : List WOp) :
    ops.foldl (fun acc op => acc.bind (fun st => st.step op))
      (none : Option WatcherSt) = none := by
  induction ops with
  | nil => rfl
  | cons op rest ih =>
    rw [List.foldl_cons]
    exact ih

/-- Running a load-free operation sequence from an invariant-satisfying state
preserves the invariant. -/
theorem inv_run (ops : List WOp) :
    ∀ st : WatcherSt, WatcherInv st → (∀ op ∈ ops, ¬ op = WOp.loadOp) →
    ∀ st', WatcherSt.run st ops = some st' → WatcherInv st' := by
  induction ops with
  | nil =>
    intro st hinv _ st' h
    unfold WatcherSt.run at h
    rw [List.foldl_nil, Option.some.injEq] at h
    rwa [← h]
  | cons op rest ih =>
    intro st hinv hops st' h
    unfold WatcherSt.run at h
    rw [List.foldl_cons] at h
    have hbind : (some st).bind (fun st => st.step op) = st.step op := rfl
    rw [hbind] at h
    rcases hstep : st.step op with _ | st₁
    · rw [hstep, run_from_none] at h
      cases h
    · rw [hstep] at h
      have hinv1 : WatcherInv st₁ := by
        cases op with
        | add g rm lb =>
          unfold WatcherSt.step at hstep
          exact inv_add st g rm lb hinv hstep
        | removeId i =>
          have hstep' : (match dictGet? st.servers i with
              | some s => st.removeServer s
              | none => (none : Option WatcherSt)) = some st₁ := hstep
          rcases hget : dictGet? st.servers i with _ | s
          · rw [hget] at hstep'
            cases hstep'
          · rw [hget] at hstep'
            have hm := dictGet?_mem hget
            have hinv2 := hinv
            obtain ⟨_, h2, _, _, _, _, _, _⟩ := hinv2
            have hid : s.id = i := h2 (i, s) hm
            exact inv_remove st s hinv (by rw [hid]; exact hm) hstep'
        | loadOp => exact absurd rfl (hops _ (List.mem_cons_self _ _))
      exact ih st₁ hinv1 (fun o ho => hops o (List.mem_cons_of_mem _ ho)) st' h

/-- The state reached by `add(guild 1, remote "a:1")` followed by `load()`:
`load` re-appends the persisted row as a fresh object, so the guild index
holds two references (the original object and the reloaded one) while the
primary mapping holds one entry. -/
def c10BadSt : WatcherSt :=
  { db := [{ id := 1, guild := 1, remote := "a:1", label := none }],
    servers := [(1, { oid := 1, id := 1, guild := 1, remote := "a:1", label := none })],
    byGuild := [(1, [{ oid := 0, id := 1, guild := 1, remote := "a:1", label := none },
                     { oid := 1, id := 1, guild := 1, remote := "a:1", label := none }])],
    nextOid := 2 }

/-- C10 counterexample: the claim quantifies over every sequence of add,
remove and load operations, but `load` never clears the in-memory indices:
after `add` followed by `load`, the group index holds a stale reference
(the pre-load object) that is no longer a value of the primary mapping, so
the cross-reference part of the invariant fails. -/
theorem C10_add_then_load_breaks_invariant :
    WatcherSt.run { db := [], servers := [], byGuild := [], nextOid := 0 }
      [WOp.add 1 "a:1" none, WOp.loadOp] = some c10BadSt ∧
    ¬ WatcherInv c10BadSt := by
  constructor
  · decide
  · decide

/-- C10 (amended): for a watcher started by one initial `load()` from a
well-formed table (distinct ids, distinct remotes) and mutated only by
successful `add`/`remove` operations, the invariant holds: the primary
mapping is keyed consistently, there is at most one tracked server per
remote endpoint, and the group index's references coincide with the primary
mapping's values with no dangling or missing cross-references. -/
theorem C10_invariant_with_initial_load (db : List DBRow) (ops : List WOp)
    (hdbid : (db.map DBRow.id).Nodup) (hdbrem : (db.map DBRow.remote).Nodup)
    (hops : ∀ op ∈ ops, ¬ op = WOp.loadOp) (st' : WatcherSt)
    (hrun : WatcherSt.run
      (WatcherSt.load { db := db, servers := [], byGuild := [], nextOid := 0 })
      ops = some st') :
    WatcherInv st' ∧ (st'.servers.map (fun p => p.2.remote)).Nodup := by
  have hload : WatcherInv
      (WatcherSt.load { db := db, servers := [], byGuild := [], nextOid := 0 }) := by
    unfold WatcherSt.load
    exact inv_load_go db _ (inv_init db hdbid hdbrem) (fun r hr => hr)
      (fun r _ hk => by simp at hk) hdbid
  have hfin := inv_run ops _ hload hops st' hrun
  exact ⟨hfin, inv_remotes_nodup st' hfin⟩

/-- The table and operations of the C10 witness. -/
def c10DbW : List DBRow := [{ id := 3, guild := 7, remote := "a:1", label := none }]

/-- One add (fresh id 4) and one remove of the loaded server. -/
def c10OpsW : List WOp := [WOp.add 7 "b:2" none, WOp.removeId 3]

/-- The state the C10 witness run reaches. -/
def c10StW : WatcherSt :=
  { db := [{ id := 4, guild := 7, remote := "b:2", label := none }],
    servers := [(4, { oid := 1, id := 4, guild := 7, remote := "b:2", label := none })],
    byGuild := [(7, [{ oid := 1, id := 4, guild := 7, remote := "b:2", label := none }])],
    nextOid := 2 }

/-- Witness for C10 (amended): a concrete load-add-remove run satisfying all
hypotheses reaches a state satisfying the invariant. -/
theorem C10_invariant_with_initial_load_witness :
    WatcherSt.run
      (WatcherSt.load { db := c10DbW, servers := [], byGuild := [], nextOid := 0 })
      c10OpsW = some c10StW ∧
    (WatcherInv c10StW ∧ (c10StW.servers.map (fun p => p.2.remote)).Nodup) :=
  ⟨by decide,
    C10_invariant_with_initial_load c10DbW c10OpsW (by decide) (by decide)
      (by decide) c10StW (by decide)⟩

end Gutbuster
